import Mathlib

/-!
# QR code API backend: metering and entitlement

A shallow embedding of `qr_api_backend.go` (package `main`): the plan catalog,
the usage counter kept in Redis, the per-key rate limiter registry, the
authentication middleware and the handlers `handleGenerate`, `handleUsage`
and `handleAnalytics`.

Conventions.
* Go `int` is 64 bit: integers are `Int`, and arithmetic that can leave the
  range goes through `wrap64`.
* Shared state (`App`) is passed explicitly; every handler returns the
  response, the new state and the list of calls it made to its external
  collaborators (Redis, SQLite, the QR library, the rate limiter).
* What the process reads from the world during one request (clock, random
  identifiers, decoded body) is an explicit argument.
-/

namespace QrApi

/-! ## Machine integers -/

/-- Two to the 63: Go `int` ranges over `[-int64Bound, int64Bound)`. -/
def int64Bound : Int := 9223372036854775808

/-- Whether an integer fits a Go `int`. -/
def inInt64 (n : Int) : Bool := decide (-int64Bound ≤ n) && decide (n < int64Bound)

/-- Two's complement wrap-around of 64-bit signed arithmetic. -/
def wrap64 (n : Int) : Int := (n + int64Bound) % (2 * int64Bound) - int64Bound

/-! ## Decimal integers: `%d`, Redis integer replies, `strconv.Atoi` -/

/-- The ASCII digit of `d < 10`. -/
def digitChar (d : Nat) : Char := Char.ofNat (48 + d)

/-- Decimal digits of `n`, most significant first; `fuel` bounds the number of digits. -/
def natDigits : Nat → Nat → List Char
  | 0, _ => []
  | fuel + 1, n =>
    if n < 10 then [digitChar n] else natDigits fuel (n / 10) ++ [digitChar (n % 10)]

/-- Canonical decimal rendering of an integer (what `%d` prints and what Redis
stores after `INCR`). -/
def itoa (n : Int) : String :=
  match n with
  | Int.ofNat m => String.mk (natDigits (m + 1) m)
  | Int.negSucc m => String.mk ('-' :: natDigits (m + 2) (m + 1))

/-- Value of a run of ASCII digits read after the accumulator `acc`; `none` on
any other character. -/
def parseDigits (acc : Nat) : List Char → Option Nat
  | [] => some acc
  | c :: cs => if c.isDigit then parseDigits (acc * 10 + (c.toNat - 48)) cs else none

/-- The digits of `strconv.Atoi` once the sign is read: at least one decimal
digit and nothing else, the signed value within the range of `int`. -/
def atoiDigits (negative : Bool) (ds : List Char) : Option Int :=
  match ds with
  | [] => none
  | _ :: _ =>
    match parseDigits 0 ds with
    | none => none
    | some m =>
      let v : Int := if negative then -(m : Int) else (m : Int)
      if inInt64 v then some v else none

/-- Embedding of `strconv.Atoi`: an optional sign, then the digits; `none` stands
for a non-nil error. -/
def atoi (s : String) : Option Int :=
  match s.data with
  | [] => none
  | c :: ds =>
    if c = '-' then atoiDigits true ds
    else if c = '+' then atoiDigits false ds
    else atoiDigits false (c :: ds)

/-! ## The plan catalog -/

/-- The package variable `plans`, read as `plans[plan]`: a key that is not in
the map yields the zero value. -/
def plans (plan : String) : Int :=
  if plan = "free" then 100
  else if plan = "starter" then 2500
  else if plan = "pro" then 10000
  else if plan = "business" then 100000
  else 0

/-! ## The usage counter store (Redis) -/

/-- Reply of a Redis `GET`: `redis.Nil` (no such key), another error, or the
stored string. -/
inductive GetReply where
  | redisNil
  | failure (msg : String)
  | value (s : String)
  deriving DecidableEq, Repr

/-- The Redis server as the program sees it: whether it answers at all, the
string stored under each key, and the time to live last set on each key (in
seconds). -/
structure Redis where
  up : Bool
  data : String → Option String
  ttl : String → Option Nat

/-- Redis `GET key`. -/
def Redis.get (r : Redis) (key : String) : GetReply :=
  if r.up then
    match r.data key with
    | none => GetReply.redisNil
    | some s => GetReply.value s
  else GetReply.failure "connection refused"

/-- The integer Redis reads in a stored string: only the canonical decimal
rendering of a 64-bit integer counts. -/
def redisInt (s : String) : Option Int :=
  match atoi s with
  | none => none
  | some n => if itoa n = s then some n else none

/-- Redis `INCR key`: a missing key counts as 0; a value that is not an integer,
or an increment that would overflow, is an error and changes nothing. -/
def Redis.incr (r : Redis) (key : String) : Redis :=
  if r.up then
    match r.data key with
    | none => { r with data := Function.update r.data key (some (itoa 1)) }
    | some s =>
      match redisInt s with
      | none => r
      | some n =>
        if n + 1 < int64Bound then
          { r with data := Function.update r.data key (some (itoa (n + 1))) }
        else r
  else r

/-- Redis `EXPIRE key seconds`: sets the time to live of an existing key. -/
def Redis.expire (r : Redis) (key : String) (seconds : Nat) : Redis :=
  if r.up then
    match r.data key with
    | none => r
    | some _ => { r with ttl := Function.update r.ttl key (some seconds) }
  else r

/-- The counter key `fmt.Sprintf("usage:%d:%s", userID, time.Now().Format("2006-01"))`;
`period` is the formatted month. -/
def usageKey (userID : Int) (period : String) : String :=
  "usage:" ++ itoa userID ++ ":" ++ period

/-- Embedding of `(*App).getMonthlyUsage`. -/
def getMonthlyUsage (r : Redis) (userID : Int) (period : String) : Except String Int :=
  match r.get (usageKey userID period) with
  | GetReply.redisNil => Except.ok 0
  | GetReply.failure msg => Except.error msg
  | GetReply.value val =>
    match atoi val with
    | some n => Except.ok n
    | none => Except.error "strconv.Atoi: parsing failed"

/-- Embedding of `(*App).incrementUsage`: `INCR` then `EXPIRE` for 32 days, both
replies ignored. -/
def incrementUsage (r : Redis) (userID : Int) (period : String) : Redis :=
  (r.incr (usageKey userID period)).expire (usageKey userID period) (32 * 24 * 3600)

/-! ## The rate limiter (`golang.org/x/time/rate`) -/

/-- Nanoseconds in a second (`time.Second`). -/
def second : Nat := 1000000000

/-- Modelled from the spec: the token bucket behind `rate.Limiter`, which lives in
the library golang.org/x/time/rate and not in the sources ("per-account token
bucket (capacity, refill rate, current tokens, last-refill timestamp)").
`interval` is the refill interval in nanoseconds per token (`rate.Every`),
`burst` the capacity, `last` the time of the last update in nanoseconds.
`tokens` counts nanoseconds of refill, so that one token is `interval` units
and the arithmetic is exact where the library rounds in `float64`. -/
structure Limiter where
  interval : Nat
  burst : Nat
  tokens : Nat
  last : Nat
  deriving DecidableEq, Repr

/-- Modelled from the spec: `rate.NewLimiter(rate.Every(interval), burst)`, a
bucket that starts full. -/
def NewLimiter (interval burst : Nat) : Limiter :=
  { interval := interval, burst := burst, tokens := burst * interval, last := 0 }

/-- Modelled from the spec: the tokens available at time `t` (`advance` in the
library): the stored tokens plus one unit per nanosecond elapsed since `last`,
capped at the capacity; a clock that went backwards counts as no time elapsed. -/
def Limiter.advance (l : Limiter) (t : Nat) : Nat :=
  let last := if t < l.last then t else l.last
  min (l.burst * l.interval) (l.tokens + (t - last))

/-- Modelled from the spec: `(*Limiter).Allow()` called at time `t`
("`admit` returns false once tokens are exhausted and must not block"): one
token is taken when a whole token is available, and the bucket is left as it
was otherwise. -/
def Limiter.allow (l : Limiter) (t : Nat) : Bool × Limiter :=
  let tokens := l.advance t
  if 1 ≤ l.burst ∧ l.interval ≤ tokens then
    (true, { l with tokens := tokens - l.interval, last := t })
  else (false, l)

/-- Runs `Allow()` at each of the times `ts` in turn and pairs each time with
the decision taken. -/
def Limiter.run (l : Limiter) : List Nat → List (Nat × Bool)
  | [] => []
  | t :: ts => (t, (l.allow t).1) :: Limiter.run (l.allow t).2 ts

/-- How many of the attempts at times `ts` are let through with a time stamp
in the window `[a, a + w)`. -/
def allowedInWindow (l : Limiter) (ts : List Nat) (a w : Nat) : Nat :=
  ((l.run ts).filter fun p => p.2 && decide (a ≤ p.1) && decide (p.1 < a + w)).length

/-! ## Persistent storage (SQLite) -/

/-- A row of table `users`. -/
structure UserRow where
  id : Int
  api_key : String
  plan : String
  stripe_customer_id : String
  deriving DecidableEq, Repr

/-- A row of table `qr_codes`; `created_at` in nanoseconds. -/
structure QRRow where
  id : String
  user_id : Int
  data : String
  scans : Int
  created_at : Int
  deriving DecidableEq, Repr

/-- The database behind `app.db`: the two tables of `initDB`, and whether SQLite
answers the statements sent to it (`up = false` stands for any error of the
driver, such as a locked or unreachable database). -/
structure DB where
  up : Bool
  users : List UserRow
  qr_codes : List QRRow
  deriving DecidableEq, Repr

/-- The Go struct `User`. -/
structure User where
  ID : Int
  APIKey : String
  Plan : String
  Usage : Int
  Limit : Int
  deriving DecidableEq, Repr

/-- Embedding of `(*App).getUserByAPIKey`: the row whose `api_key` is the key
presented; no such row is the error `sql.ErrNoRows`, and a query that is not
answered is an error as well. -/
def getUserByAPIKey (db : DB) (apiKey : String) : Except String User :=
  if db.up then
    match db.users.find? fun u => decide (u.api_key = apiKey) with
    | none => Except.error "sql: no rows in result set"
    | some u =>
      Except.ok { ID := u.id, APIKey := u.api_key, Plan := u.plan, Usage := 0, Limit := 0 }
  else Except.error "database is locked"

/-- The statement `INSERT INTO qr_codes (id, user_id, data) VALUES (?, ?, ?)`: `id` is
the primary key, so a second row with the same id is refused; `scans` and
`created_at` take their defaults; `none` stands for a non-nil error. -/
def DB.insertQR (db : DB) (id : String) (userID : Int) (data : String) (now : Int) :
    Option DB :=
  if db.up = false then none
  else if db.qr_codes.any fun q => decide (q.id = id) then none
  else some { db with qr_codes := db.qr_codes ++
    [{ id := id, user_id := userID, data := data, scans := 0, created_at := now }] }

/-! ## The shared state -/

/-- The Go struct `App`. The map `limiter` holds pointers: a pointer is an index
into `heap`, the limiters allocated so far by `rate.NewLimiter`. -/
structure App where
  db : DB
  redis : Redis
  limiter : String → Option Nat
  heap : List Limiter

/-- Embedding of `(*App).getLimiter`: the pointer registered for the key, or a
newly allocated limiter of 10 tokens refilled every 6 seconds, which is
registered under the key. -/
def getLimiter (app : App) (apiKey : String) : Nat × App :=
  match app.limiter apiKey with
  | some limiter => (limiter, app)
  | none =>
    (app.heap.length,
      { app with
        heap := app.heap ++ [NewLimiter (6 * second) 10]
        limiter := Function.update app.limiter apiKey (some app.heap.length) })

/-- A call of `Allow()` at time `now` through the pointer `addr`. -/
def allowAt (app : App) (addr : Nat) (now : Nat) : Bool × App :=
  match app.heap.get? addr with
  | none => (false, app)
  | some l => ((l.allow now).1, { app with heap := app.heap.set addr (l.allow now).2 })

/-! ## Requests, responses and the calls made on collaborators -/

/-- The Go struct `QRRequest`. -/
structure QRRequest where
  Data : String
  Size : Int
  Format : String
  Color : String
  BgColor : String
  Logo : String
  deriving DecidableEq, Repr

/-- The Go struct `QRResponse`. -/
structure QRResponse where
  QRCode : String
  QRUrl : String
  Analytics : String
  deriving DecidableEq, Repr

/-- A `color.Color` value: `color.Gray16` (black is `gray16 0`, white is
`gray16 65535`) or `color.RGBA`. -/
inductive Color where
  | gray16 (y : Nat)
  | rgba (r g b a : Nat)
  deriving DecidableEq, Repr

/-- The struct `qrcode.QRCode` as far as the program touches it. -/
structure QRCode where
  Content : String
  ForegroundColor : Color
  BackgroundColor : Color
  deriving DecidableEq, Repr

/-- The external functions the program calls and does not define: the QR
library (`qrcode.New` at level `qrcode.Medium`, `(*QRCode).PNG`) and
`base64.StdEncoding.EncodeToString`. -/
structure Ext where
  qrNew : String → Except String QRCode
  qrPNG : QRCode → Int → Except String (List UInt8)
  base64 : List UInt8 → String

/-- A `float64` as far as `handleAnalytics` needs it: a finite value (kept exact,
rounding and the sign of zero are not modelled), an infinity, or NaN. -/
inductive F64 where
  | fin (q : ℚ)
  | inf (negative : Bool)
  | nan
  deriving DecidableEq

/-- The JSON bodies the handlers write. -/
inductive Body where
  | error (msg : String)
  | limitExceeded (error : String) (usage limit : Int) (upgrade_url : String)
  | qr (r : QRResponse)
  | usage (plan : String) (usage limit remaining : Int) (reset_date : String)
  | analytics (qr_id : String) (total_scans created_at : Int) (avg_scans_per_day : F64)

/-- An HTTP response: status code and body. -/
structure Response where
  status : Nat
  body : Body

/-- A call made on an external collaborator while a request is served. -/
inductive Call where
  | selectUser (apiKey : String)
  | newLimiter (apiKey : String)
  | limiterAllow (addr now : Nat)
  | redisGet (key : String)
  | redisIncr (key : String)
  | redisExpire (key : String)
  | render (req : QRRequest) (plan : String)
  | insertQR (id : String)
  | selectQR (id : String)
  deriving DecidableEq, Repr

/-- What serving a request yields: the response written, the state left behind
and the calls made, in order. -/
structure Result where
  resp : Response
  app : App
  calls : List Call

/-! ## Rendering -/

/-- The bytes of a Go string (UTF-8). -/
def goBytes (s : String) : List UInt8 := s.data.flatMap String.utf8EncodeChar

/-- Value of a hexadecimal digit, as `strconv.ParseUint` reads it in base 16. -/
def hexDigit (c : UInt8) : Option Nat :=
  if 48 ≤ c.toNat ∧ c.toNat ≤ 57 then some (c.toNat - 48)
  else if 97 ≤ c.toNat ∧ c.toNat ≤ 102 then some (c.toNat - 97 + 10)
  else if 65 ≤ c.toNat ∧ c.toNat ≤ 70 then some (c.toNat - 65 + 10)
  else none

/-- The call `strconv.ParseUint(s, 16, 8)` on a two-byte string with the error
dropped: the value, or 0 when a byte is not a hexadecimal digit. -/
def parseHexByte (hi lo : UInt8) : Nat :=
  match hexDigit hi, hexDigit lo with
  | some h, some l => h * 16 + l
  | _, _ => 0

/-- Embedding of `parseColor`. -/
def parseColor (hexColor : String) : Color :=
  match goBytes hexColor with
  | [c0, c1, c2, c3, c4, c5, c6] =>
    if c0.toNat ≠ 35 then Color.gray16 0
    else Color.rgba (parseHexByte c1 c2) (parseHexByte c3 c4) (parseHexByte c5 c6) 255
  | _ => Color.gray16 0

/-- Embedding of `(*App).generateQR`. -/
def generateQR (ext : Ext) (req : QRRequest) (plan : String) : Except String (List UInt8) :=
  match ext.qrNew req.Data with
  | Except.error err => Except.error err
  | Except.ok qr =>
    let qr :=
      if plan ≠ "free" then
        if plan = "pro" ∨ plan = "business" then
          { qr with
            ForegroundColor := parseColor req.Color
            BackgroundColor := parseColor req.BgColor }
        else qr
      else qr
    ext.qrPNG qr req.Size

/-! ## `handleGenerate` -/

/-- What one run of `handleGenerate` reads from the world: the decoded JSON body
(`none` when the body does not decode into a `QRRequest`), the formatted month
at the time of the usage read and at the time of the increment, whether Redis
answers the `INCR` and `EXPIRE` of `incrementUsage` (their replies are dropped, and a
command that is not answered changes nothing), the identifier drawn by
`generateID`, and the time stamp SQLite gives the new row. -/
structure GenerateInput where
  body : Option QRRequest
  periodAtRead : String
  periodAtIncr : String
  incrAnswered : Bool
  qrID : String
  createdAt : Int

/-- The call `c.ShouldBindJSON(&req)`: decoding, then the `binding:"required"` check on
`Data`, which refuses the zero value. -/
def bindJSON (body : Option QRRequest) : Except String QRRequest :=
  match body with
  | none => Except.error "invalid request body"
  | some req =>
    if req.Data = "" then Except.error "Field validation for Data failed on the required tag"
    else Except.ok req

/-- The "Set defaults" block of `handleGenerate`. -/
def setDefaults (req : QRRequest) : QRRequest :=
  let req := if req.Size = 0 then { req with Size := 256 } else req
  let req := if req.Format = "" then { req with Format := "png" } else req
  let req := if req.Color = "" then { req with Color := "#000000" } else req
  if req.BgColor = "" then { req with BgColor := "#FFFFFF" } else req

/-- Embedding of `(*App).handleGenerate` for the user the middleware put in the
context. -/
def handleGenerate (ext : Ext) (app : App) (user : User) (inp : GenerateInput) : Result :=
  match bindJSON inp.body with
  | Except.error msg => { resp := ⟨400, Body.error msg⟩, app := app, calls := [] }
  | Except.ok req =>
    let readCall := Call.redisGet (usageKey user.ID inp.periodAtRead)
    match getMonthlyUsage app.redis user.ID inp.periodAtRead with
    | Except.error _ =>
      { resp := ⟨500, Body.error "Failed to check usage"⟩, app := app, calls := [readCall] }
    | Except.ok usage =>
      let limit := plans user.Plan
      if usage ≥ limit then
        { resp := ⟨429, Body.limitExceeded "Monthly limit exceeded" usage limit
            "https://qrapi.dev/upgrade"⟩
          app := app
          calls := [readCall] }
      else
        let req := setDefaults req
        let qrID := inp.qrID
        match generateQR ext req user.Plan with
        | Except.error _ =>
          { resp := ⟨500, Body.error "Failed to generate QR code"⟩
            app := app
            calls := [readCall, Call.render req user.Plan] }
        | Except.ok qrCode =>
          match app.db.insertQR qrID user.ID req.Data inp.createdAt with
          | none =>
            { resp := ⟨500, Body.error "Failed to save QR code"⟩
              app := app
              calls := [readCall, Call.render req user.Plan, Call.insertQR qrID] }
          | some db =>
            { resp := ⟨200, Body.qr
                { QRCode := ext.base64 qrCode
                  QRUrl := "https://qrapi.dev/qr/" ++ qrID
                  Analytics := "https://qrapi.dev/analytics/" ++ qrID }⟩
              app := { app with
                db := db
                redis :=
                  if inp.incrAnswered then incrementUsage app.redis user.ID inp.periodAtIncr
                  else app.redis }
              calls := [readCall, Call.render req user.Plan, Call.insertQR qrID,
                Call.redisIncr (usageKey user.ID inp.periodAtIncr),
                Call.redisExpire (usageKey user.ID inp.periodAtIncr)] }

/-! ## `handleUsage` -/

/-- Embedding of `(*App).handleUsage`; `period` is the formatted month and
`resetDate` the value of `getNextMonthFirst()`. -/
def handleUsage (app : App) (user : User) (period resetDate : String) : Result :=
  match getMonthlyUsage app.redis user.ID period with
  | Except.error _ =>
    { resp := ⟨500, Body.error "Failed to get usage"⟩
      app := app
      calls := [Call.redisGet (usageKey user.ID period)] }
  | Except.ok usage =>
    let limit := plans user.Plan
    { resp := ⟨200, Body.usage user.Plan usage limit (wrap64 (limit - usage)) resetDate⟩
      app := app
      calls := [Call.redisGet (usageKey user.ID period)] }

/-! ## `authMiddleware` and the routes behind it -/

/-- How the middleware leaves the request: aborted with a response, or passed on
(`c.Next()`) with the user stored in the context. -/
inductive AuthOutcome where
  | abort (resp : Response)
  | next (user : User)

/-- What a run of the middleware yields. -/
structure AuthResult where
  outcome : AuthOutcome
  app : App
  calls : List Call

/-- The call `c.GetHeader("X-API-Key")`: the empty string when the header is absent. -/
def getHeader (header : Option String) : String := header.getD ""

/-- Embedding of the handler returned by `(*App).authMiddleware`, run at time
`now` (nanoseconds) on a request with the given `X-API-Key` header. -/
def authMiddleware (app : App) (header : Option String) (now : Nat) : AuthResult :=
  let apiKey := getHeader header
  if apiKey = "" then
    { outcome := AuthOutcome.abort ⟨401, Body.error "API key required"⟩, app := app, calls := [] }
  else
    match getUserByAPIKey app.db apiKey with
    | Except.error _ =>
      { outcome := AuthOutcome.abort ⟨401, Body.error "Invalid API key"⟩
        app := app
        calls := [Call.selectUser apiKey] }
    | Except.ok user =>
      let created := (app.limiter apiKey).isNone
      let limiter := (getLimiter app apiKey).1
      let app := (getLimiter app apiKey).2
      let calls := [Call.selectUser apiKey] ++
        (if created then [Call.newLimiter apiKey] else []) ++ [Call.limiterAllow limiter now]
      if (allowAt app limiter now).1 = false then
        { outcome := AuthOutcome.abort ⟨429, Body.error "Rate limit exceeded"⟩
          app := (allowAt app limiter now).2
          calls := calls }
      else
        { outcome := AuthOutcome.next user, app := (allowAt app limiter now).2, calls := calls }

/-- The route `POST /api/generate`: the middleware, then `handleGenerate` unless the
middleware aborted. -/
def routeGenerate (ext : Ext) (app : App) (header : Option String) (now : Nat)
    (inp : GenerateInput) : Result :=
  match (authMiddleware app header now).outcome with
  | AuthOutcome.abort resp =>
    { resp := resp
      app := (authMiddleware app header now).app
      calls := (authMiddleware app header now).calls }
  | AuthOutcome.next user =>
    { resp := (handleGenerate ext (authMiddleware app header now).app user inp).resp
      app := (handleGenerate ext (authMiddleware app header now).app user inp).app
      calls := (authMiddleware app header now).calls ++
        (handleGenerate ext (authMiddleware app header now).app user inp).calls }

/-- The route `GET /api/usage`: the middleware, then `handleUsage` unless the
middleware aborted. -/
def routeUsage (app : App) (header : Option String) (now : Nat)
    (period resetDate : String) : Result :=
  match (authMiddleware app header now).outcome with
  | AuthOutcome.abort resp =>
    { resp := resp
      app := (authMiddleware app header now).app
      calls := (authMiddleware app header now).calls }
  | AuthOutcome.next user =>
    { resp := (handleUsage (authMiddleware app header now).app user period resetDate).resp
      app := (handleUsage (authMiddleware app header now).app user period resetDate).app
      calls := (authMiddleware app header now).calls ++
        (handleUsage (authMiddleware app header now).app user period resetDate).calls }

/-! ## `handleAnalytics` -/

/-- Division of `float64` values: IEEE 754 on zero, infinities and NaN. -/
def F64.div : F64 → F64 → F64
  | F64.nan, _ => F64.nan
  | _, F64.nan => F64.nan
  | F64.inf _, F64.inf _ => F64.nan
  | F64.inf s, F64.fin q => F64.inf (s != decide (q < 0))
  | F64.fin _, F64.inf _ => F64.fin 0
  | F64.fin a, F64.fin b =>
    if b = 0 then (if a = 0 then F64.nan else F64.inf (decide (a < 0)))
    else F64.fin (a / b)

/-- Multiplication of `float64` values: IEEE 754 on zero, infinities and NaN. -/
def F64.mul : F64 → F64 → F64
  | F64.nan, _ => F64.nan
  | _, F64.nan => F64.nan
  | F64.inf s, F64.inf t => F64.inf (s != t)
  | F64.inf s, F64.fin q => if q = 0 then F64.nan else F64.inf (s != decide (q < 0))
  | F64.fin q, F64.inf s => if q = 0 then F64.nan else F64.inf (s != decide (q < 0))
  | F64.fin a, F64.fin b => F64.fin (a * b)

/-- The call `time.Since(createdAt)` at time `now`: the difference in nanoseconds,
saturated to the range of `time.Duration`. -/
def since (now createdAt : Int) : Int :=
  max (-int64Bound) (min (int64Bound - 1) (now - createdAt))

/-- The method `Duration.Hours`. -/
def hours (d : Int) : F64 := F64.fin ((d : ℚ) / 3600000000000)

/-- The expression `float64(scans) / time.Since(createdAt).Hours() * 24` of
`handleAnalytics`. -/
def avgScansPerDay (scans now createdAt : Int) : F64 :=
  F64.mul (F64.div (F64.fin (scans : ℚ)) (hours (since now createdAt))) (F64.fin 24)

/-- Embedding of `(*App).handleAnalytics`, run at time `now` (nanoseconds) for
the identifier `qrID`. -/
def handleAnalytics (app : App) (qrID : String) (now : Int) : Result :=
  match (if app.db.up then app.db.qr_codes.find? fun q => decide (q.id = qrID) else none) with
  | none =>
    { resp := ⟨404, Body.error "QR code not found"⟩, app := app, calls := [Call.selectQR qrID] }
  | some row =>
    { resp := ⟨200, Body.analytics qrID row.scans row.created_at
        (avgScansPerDay row.scans now row.created_at)⟩
      app := app
      calls := [Call.selectQR qrID] }

/-! ## Well-formed counters -/

/-- A QR library that renders every payload to the same four bytes. -/
def sampleExt : Ext :=
  { qrNew := fun s => Except.ok ⟨s, Color.gray16 0, Color.gray16 65535⟩
    qrPNG := fun _ _ => Except.ok [137, 80, 78, 71]
    base64 := fun _ => "iVBORw==" }

/-- A QR library whose encoder refuses every payload. -/
def failingExt : Ext :=
  { sampleExt with qrNew := fun _ => Except.error "content too long to encode" }

/-- Two accounts: key `qr_a` on plan free, key `qr_b` on a plan the catalog does not list. -/
def sampleDB : DB :=
  { up := true
    users := [⟨1, "qr_a", "free", "cus_1"⟩, ⟨2, "qr_b", "enterprise", "cus_2"⟩]
    qr_codes := [] }

/-- A running Redis in which the counter of account `userID` for January 2025
holds the string `val`. -/
def sampleRedis (userID : Int) (val : String) : Redis :=
  { up := true
    data := fun k => if k = usageKey userID "2025-01" then some val else none
    ttl := fun _ => none }

/-- A state with no limiter registered yet. -/
def sampleApp (userID : Int) (val : String) : App :=
  { db := sampleDB, redis := sampleRedis userID val, limiter := fun _ => none, heap := [] }

/-- The first sample account (plan free). -/
def freeUser : User := { ID := 1, APIKey := "qr_a", Plan := "free", Usage := 0, Limit := 0 }

/-- The second sample account (plan not in the catalog). -/
def strayUser : User := { ID := 2, APIKey := "qr_b", Plan := "enterprise", Usage := 0, Limit := 0 }

/-- A request for a 300 pixel code with custom colours. -/
def sampleRequest : QRRequest :=
  { Data := "hello", Size := 300, Format := "", Color := "#FF0000", BgColor := "#00FF00", Logo := "" }

/-- A run of `handleGenerate` in January 2025 on `sampleRequest`. -/
def sampleInput : GenerateInput :=
  { body := some sampleRequest
    periodAtRead := "2025-01"
    periodAtIncr := "2025-01"
    incrAnswered := true
    qrID := "00a1b2c3d4e5f607"
    createdAt := 1736000000000000000 }

/-! ## Registry operations and request sequences -/

/-- Every pointer held by the registry points into the heap. -/
def registryWF (app : App) : Prop :=
  ∀ k p, app.limiter k = some p → p < app.heap.length

/-- The two ways the program acts on the registry and its limiters: a call of
`getLimiter` and a call of `Allow()` through a pointer. -/
inductive LimiterOp where
  | lookup (apiKey : String)
  | allow (addr now : Nat)
  deriving DecidableEq, Repr

/-- The state after one registry operation. -/
def LimiterOp.run (app : App) : LimiterOp → App
  | LimiterOp.lookup apiKey => (getLimiter app apiKey).2
  | LimiterOp.allow addr now => (allowAt app addr now).2

/-- How many of the requests arriving at the times `ts`, one after the other with
the same `X-API-Key` header, the middleware passes on to the handler. -/
def passedOn (app : App) (header : Option String) : List Nat → Nat
  | [] => 0
  | t :: ts =>
    (match (authMiddleware app header t).outcome with
      | AuthOutcome.next _ => 1
      | AuthOutcome.abort _ => 0) + passedOn (authMiddleware app header t).app header ts

/-- Ten requests at time 0, then one every 6 seconds up to second 54. -/
def burstTimes : List Nat :=
  List.replicate 10 0 ++ (List.range 9).map fun i => (i + 1) * (6 * second)

/-- A state whose artifact table holds one code with `scans` scans, created at
time `createdAt`. -/
def analyticsApp (scans createdAt : Int) : App :=
  { sampleApp 1 "0" with
    db := { sampleDB with qr_codes := [⟨"abc123", 1, "https://example.com", scans, createdAt⟩] } }

/-! ## Decimal rendering and parsing agree -/

theorem digitChar_isDigit (d : Nat) (h : d < 10) : (digitChar d).isDigit = true := by
  interval_cases d <;> decide

theorem digitChar_toNat (d : Nat) (h : d < 10) : (digitChar d).toNat - 48 = d := by
  interval_cases d <;> decide

theorem parseDigits_snoc (l : List Char) (c : Char) (acc : Nat) :
    parseDigits acc (l ++ [c]) =
      (parseDigits acc l).bind fun v =>
        if c.isDigit then some (v * 10 + (c.toNat - 48)) else none := by
  induction l generalizing acc with
  | nil => simp [parseDigits]
  | cons a l ih =>
    by_cases ha : a.isDigit = true
    · simp [parseDigits, ha, ih]
    · simp [parseDigits, ha]

theorem parseDigits_natDigits (fuel n : Nat) (h : n < fuel) :
    parseDigits 0 (natDigits fuel n) = some n := by
  induction fuel generalizing n with
  | zero => omega
  | succ f ih =>
    unfold natDigits
    by_cases hn : n < 10
    · simp [hn, parseDigits, digitChar_isDigit n hn, digitChar_toNat n hn]
    · have hlt : n / 10 < f := by omega
      have hd : n % 10 < 10 := Nat.mod_lt _ (by decide)
      simp only [hn, if_false, parseDigits_snoc, ih _ hlt, Option.some_bind,
        digitChar_isDigit _ hd, digitChar_toNat _ hd, if_true]
      congr 1
      omega

theorem natDigits_head (fuel n : Nat) :
    ∃ c cs, natDigits (fuel + 1) n = c :: cs ∧ c.isDigit = true := by
  induction fuel generalizing n with
  | zero =>
    unfold natDigits
    by_cases hn : n < 10
    · exact ⟨digitChar n, [], by simp [hn], digitChar_isDigit n hn⟩
    · exact ⟨digitChar (n % 10), [], by simp [hn, natDigits],
        digitChar_isDigit _ (Nat.mod_lt _ (by decide))⟩
  | succ f ih =>
    unfold natDigits
    by_cases hn : n < 10
    · exact ⟨digitChar n, [], by simp [hn], digitChar_isDigit n hn⟩
    · obtain ⟨c, cs, hc, hd⟩ := ih (n / 10)
      exact ⟨c, cs ++ [digitChar (n % 10)], by simp [hn, hc], hd⟩

/-- Parsing the canonical rendering of a 64-bit integer gives the integer back. -/
theorem atoi_itoa (n : Int) (h : inInt64 n = true) : atoi (itoa n) = some n := by
  cases n with
  | ofNat m =>
    obtain ⟨c, cs, hc, hd⟩ := natDigits_head m m
    have hp := parseDigits_natDigits (m + 1) m (by omega)
    have h1 : c ≠ '-' := by rintro rfl; exact absurd hd (by decide)
    have h2 : c ≠ '+' := by rintro rfl; exact absurd hd (by decide)
    rw [hc] at hp
    have h' : inInt64 (m : Int) = true := h
    simp [itoa, atoi, hc, h1, h2, atoiDigits, hp, h']
  | negSucc m =>
    obtain ⟨c, cs, hc, _⟩ := natDigits_head (m + 1) (m + 1)
    have hp := parseDigits_natDigits (m + 2) (m + 1) (by omega)
    rw [hc] at hp
    have h' : inInt64 (-((m : Int) + 1)) = true := by
      rw [← Int.negSucc_eq]; exact h
    have hneg : inInt64 (-1 + -(m : Int)) = true := by
      rw [show -1 + -(m : Int) = -((m : Int) + 1) by ring]; exact h'
    simp [itoa, atoi, hc, atoiDigits, hp, hneg, Int.negSucc_eq]

/-- The canonical rendering is what Redis reads as an integer. -/
theorem redisInt_itoa (n : Int) (h : inInt64 n = true) : redisInt (itoa n) = some n := by
  simp [redisInt, atoi_itoa n h]

/-- A value `strconv.Atoi` returns fits a Go `int`. -/
theorem atoi_inInt64 {s : String} {n : Int} (h : atoi s = some n) : inInt64 n = true := by
  have key : ∀ (b : Bool) (ds : List Char), atoiDigits b ds = some n → inInt64 n = true := by
    intro b ds hb
    unfold atoiDigits at hb
    cases ds with
    | nil => simp at hb
    | cons c cs =>
      simp only at hb
      cases hp : parseDigits 0 (c :: cs) with
      | none => simp [hp] at hb
      | some m =>
        simp only [hp] at hb
        split at hb
        · simp at hb; obtain ⟨hr, rfl⟩ := hb; exact hr
        · simp at hb; obtain ⟨hr, rfl⟩ := hb; exact hr
  unfold atoi at h
  cases hd : s.data with
  | nil => simp [hd] at h
  | cons c ds =>
    simp only [hd] at h
    split at h
    · exact key _ _ h
    · split at h
      · exact key _ _ h
      · exact key _ _ h

/-! ## The usage read -/

/-- A usage that was read fits a Go `int`. -/
theorem getMonthlyUsage_inInt64 {r : Redis} {userID : Int} {period : String} {N : Int}
    (h : getMonthlyUsage r userID period = Except.ok N) : inInt64 N = true := by
  unfold getMonthlyUsage at h
  split at h
  · cases h; decide
  · cases h
  · rename_i val _
    cases ha : atoi val with
    | none => simp [ha] at h
    | some n =>
      simp only [ha] at h
      cases h
      exact atoi_inInt64 ha

theorem wrap64_of_inInt64 (n : Int) (h : inInt64 n = true) : wrap64 n = n := by
  simp only [inInt64, int64Bound, Bool.and_eq_true, decide_eq_true_eq] at h
  simp only [wrap64, int64Bound]
  omega

/-! ## Quota enforcement -/

/-- Claim C10. Fail-closed on unknown plans: when the plan of the account is none of
free, starter, pro, business, the quota looked up is 0; then for every usage
`N ≥ 0` read from the store, `handleGenerate` on a well-formed request answers
429 "Monthly limit exceeded" with usage `N` and limit 0, leaves the state as
it was and calls nothing but the usage read (no render, no insert, no
increment), and `handleUsage` reports limit 0 and remaining `-N`. -/
theorem unknown_plan_fails_closed (ext : Ext) (app : App) (user : User)
    (inp : GenerateInput) (req : QRRequest) (resetDate : String) (N : Int)
    (hplan : user.Plan ≠ "free" ∧ user.Plan ≠ "starter" ∧ user.Plan ≠ "pro" ∧
      user.Plan ≠ "business")
    (hbind : bindJSON inp.body = Except.ok req)
    (hread : getMonthlyUsage app.redis user.ID inp.periodAtRead = Except.ok N)
    (hN : 0 ≤ N) :
    plans user.Plan = 0 ∧
    (handleGenerate ext app user inp).resp.status = 429 ∧
    (handleGenerate ext app user inp).resp.body =
      Body.limitExceeded "Monthly limit exceeded" N 0 "https://qrapi.dev/upgrade" ∧
    (handleGenerate ext app user inp).app = app ∧
    (handleGenerate ext app user inp).calls =
      [Call.redisGet (usageKey user.ID inp.periodAtRead)] ∧
    (handleUsage app user inp.periodAtRead resetDate).resp.status = 200 ∧
    (handleUsage app user inp.periodAtRead resetDate).resp.body =
      Body.usage user.Plan N 0 (-N) resetDate := by
  obtain ⟨h1, h2, h3, h4⟩ := hplan
  have hq : plans user.Plan = 0 := by simp [plans, h1, h2, h3, h4]
  have hr := getMonthlyUsage_inInt64 hread
  have hw : wrap64 (-N) = -N := by
    rw [wrap64_of_inInt64]
    · simp only [inInt64, int64Bound, Bool.and_eq_true, decide_eq_true_eq] at hr ⊢
      omega
  refine ⟨hq, ?_, ?_, ?_, ?_, ?_, ?_⟩ <;>
    simp [handleGenerate, handleUsage, hbind, hread, hq, hN, hw]

/-- Claim C10 at a concrete input: account 2 on plan "enterprise" with usage 7. -/
theorem unknown_plan_fails_closed_witness :
    plans "enterprise" = 0 ∧
    (handleGenerate sampleExt (sampleApp 2 "7") strayUser sampleInput).resp.status = 429 ∧
    (handleGenerate sampleExt (sampleApp 2 "7") strayUser sampleInput).resp.body =
      Body.limitExceeded "Monthly limit exceeded" 7 0 "https://qrapi.dev/upgrade" ∧
    (handleGenerate sampleExt (sampleApp 2 "7") strayUser sampleInput).app = sampleApp 2 "7" ∧
    (handleGenerate sampleExt (sampleApp 2 "7") strayUser sampleInput).calls =
      [Call.redisGet (usageKey 2 "2025-01")] ∧
    (handleUsage (sampleApp 2 "7") strayUser "2025-01" "2025-02-01").resp.status = 200 ∧
    (handleUsage (sampleApp 2 "7") strayUser "2025-01" "2025-02-01").resp.body =
      Body.usage "enterprise" 7 0 (-7) "2025-02-01" :=
  unknown_plan_fails_closed sampleExt (sampleApp 2 "7") strayUser sampleInput sampleRequest
    "2025-02-01" 7 (by decide) rfl rfl (by decide)

/-- Claim C2. A failed render is not charged: on a well-formed request of an account
under quota, when `generateQR` fails `handleGenerate` answers 500 "Failed to
generate QR code", the state (usage counters and artifact table included) is
left as it was, and the calls made are the usage read and the render only. -/
theorem failed_render_not_charged (ext : Ext) (app : App) (user : User)
    (inp : GenerateInput) (req : QRRequest) (N : Int) (msg : String)
    (hbind : bindJSON inp.body = Except.ok req)
    (hread : getMonthlyUsage app.redis user.ID inp.periodAtRead = Except.ok N)
    (hquota : N < plans user.Plan)
    (hrender : generateQR ext (setDefaults req) user.Plan = Except.error msg) :
    (handleGenerate ext app user inp).resp.status = 500 ∧
    (handleGenerate ext app user inp).resp.body = Body.error "Failed to generate QR code" ∧
    (handleGenerate ext app user inp).app = app ∧
    (∀ period, getMonthlyUsage (handleGenerate ext app user inp).app.redis user.ID period =
      getMonthlyUsage app.redis user.ID period) ∧
    (handleGenerate ext app user inp).app.db.qr_codes = app.db.qr_codes ∧
    (handleGenerate ext app user inp).calls =
      [Call.redisGet (usageKey user.ID inp.periodAtRead),
        Call.render (setDefaults req) user.Plan] := by
  have hge : ¬ N ≥ plans user.Plan := by omega
  refine ⟨?_, ?_, ?_, ?_, ?_, ?_⟩ <;>
    simp [handleGenerate, hbind, hread, hge, hrender]

/-- Claim C2 at a concrete input: plan free with usage 5 and an encoder that refuses
the payload. -/
theorem failed_render_not_charged_witness :
    (handleGenerate failingExt (sampleApp 1 "5") freeUser sampleInput).resp.status = 500 ∧
    (handleGenerate failingExt (sampleApp 1 "5") freeUser sampleInput).resp.body =
      Body.error "Failed to generate QR code" ∧
    (handleGenerate failingExt (sampleApp 1 "5") freeUser sampleInput).app = sampleApp 1 "5" ∧
    (∀ period,
      getMonthlyUsage (handleGenerate failingExt (sampleApp 1 "5") freeUser sampleInput).app.redis
        1 period = getMonthlyUsage (sampleApp 1 "5").redis 1 period) ∧
    (handleGenerate failingExt (sampleApp 1 "5") freeUser sampleInput).app.db.qr_codes = [] ∧
    (handleGenerate failingExt (sampleApp 1 "5") freeUser sampleInput).calls =
      [Call.redisGet (usageKey 1 "2025-01"), Call.render (setDefaults sampleRequest) "free"] :=
  failed_render_not_charged failingExt (sampleApp 1 "5") freeUser sampleInput sampleRequest 5
    "content too long to encode" rfl rfl (by decide) rfl

/-- Claim C5. The usage read: a counter key that is absent reads as usage 0 with no
error; a read that fails otherwise, or a stored value that is not an integer,
is an error; and on such an error `handleGenerate` (request well formed)
answers 500 "Failed to check usage", leaves the state as it was and makes no
call after the read: no render, no insert, no increment. -/
theorem usage_read_failure_denies (ext : Ext) (app : App) (user : User)
    (inp : GenerateInput) (req : QRRequest)
    (hbind : bindJSON inp.body = Except.ok req) :
    (app.redis.get (usageKey user.ID inp.periodAtRead) = GetReply.redisNil →
      getMonthlyUsage app.redis user.ID inp.periodAtRead = Except.ok 0) ∧
    (∀ msg, app.redis.get (usageKey user.ID inp.periodAtRead) = GetReply.failure msg →
      getMonthlyUsage app.redis user.ID inp.periodAtRead = Except.error msg) ∧
    (∀ val, app.redis.get (usageKey user.ID inp.periodAtRead) = GetReply.value val →
      atoi val = none →
      ∃ msg, getMonthlyUsage app.redis user.ID inp.periodAtRead = Except.error msg) ∧
    (∀ msg, getMonthlyUsage app.redis user.ID inp.periodAtRead = Except.error msg →
      (handleGenerate ext app user inp).resp.status = 500 ∧
      (handleGenerate ext app user inp).resp.body = Body.error "Failed to check usage" ∧
      (handleGenerate ext app user inp).app = app ∧
      (handleGenerate ext app user inp).calls =
        [Call.redisGet (usageKey user.ID inp.periodAtRead)]) := by
  refine ⟨?_, ?_, ?_, ?_⟩
  · intro h; simp [getMonthlyUsage, h]
  · intro msg h; simp [getMonthlyUsage, h]
  · intro val h ha
    exact ⟨"strconv.Atoi: parsing failed", by simp [getMonthlyUsage, h, ha]⟩
  · intro msg h
    refine ⟨?_, ?_, ?_, ?_⟩ <;> simp [handleGenerate, hbind, h]

/-- Claim C5 at concrete inputs: a key that is absent reads 0; a server that does not
answer makes `handleGenerate` answer 500 without touching anything; so does a
counter holding "12a". -/
theorem usage_read_failure_denies_witness :
    getMonthlyUsage (sampleApp 2 "7").redis 1 "2025-01" = Except.ok 0 ∧
    ((handleGenerate sampleExt { sampleApp 1 "7" with redis := { sampleRedis 1 "7" with up := false } }
        freeUser sampleInput).resp.status = 500 ∧
      (handleGenerate sampleExt { sampleApp 1 "7" with redis := { sampleRedis 1 "7" with up := false } }
        freeUser sampleInput).calls = [Call.redisGet (usageKey 1 "2025-01")]) ∧
    ((handleGenerate sampleExt (sampleApp 1 "12a") freeUser sampleInput).resp.status = 500 ∧
      (handleGenerate sampleExt (sampleApp 1 "12a") freeUser sampleInput).app =
        sampleApp 1 "12a") :=
  have down := usage_read_failure_denies sampleExt
    { sampleApp 1 "7" with redis := { sampleRedis 1 "7" with up := false } } freeUser sampleInput
    sampleRequest rfl
  have junk := usage_read_failure_denies sampleExt (sampleApp 1 "12a") freeUser sampleInput
    sampleRequest rfl
  ⟨(usage_read_failure_denies sampleExt (sampleApp 2 "7") freeUser sampleInput sampleRequest
      rfl).1 rfl,
    ⟨(down.2.2.2 _ (down.2.1 _ rfl)).1, (down.2.2.2 _ (down.2.1 _ rfl)).2.2.2⟩,
    ⟨(junk.2.2.2 _ (junk.2.2.1 "12a" rfl rfl).choose_spec).1,
      (junk.2.2.2 _ (junk.2.2.1 "12a" rfl rfl).choose_spec).2.2.1⟩⟩

/-! ## Feature gating -/

theorem setDefaults_Data (req : QRRequest) : (setDefaults req).Data = req.Data := by
  simp only [setDefaults]
  split_ifs <;> rfl

theorem setDefaults_Size (req : QRRequest) :
    (setDefaults req).Size = if req.Size = 0 then 256 else req.Size := by
  simp only [setDefaults]
  split_ifs <;> simp_all

/-- On plan free the render depends on the payload and the size only. -/
theorem generateQR_free (ext : Ext) (req : QRRequest) :
    generateQR ext req "free" =
      match ext.qrNew req.Data with
      | Except.error err => Except.error err
      | Except.ok qr => ext.qrPNG qr req.Size := by
  unfold generateQR
  cases ext.qrNew req.Data <;> simp

/-- Claim C4. Feature gating: for every payload, size and pair of values of `color` and
`bg_color`, the render of plan free after the defaulting of `handleGenerate`
equals the render of the same request with neither colour given; and
`handleGenerate` for an account on plan free gives the same response and the
same state for both requests, so the colours are ignored and never a cause of
failure. -/
theorem free_tier_ignores_colors (ext : Ext) (app : App) (user : User)
    (inp : GenerateInput) (req : QRRequest) (color bgColor : String) :
    generateQR ext (setDefaults { req with Color := color, BgColor := bgColor }) "free" =
      generateQR ext (setDefaults { req with Color := "", BgColor := "" }) "free" ∧
    (handleGenerate ext app { user with Plan := "free" }
        { inp with body := some { req with Color := color, BgColor := bgColor } }).resp =
      (handleGenerate ext app { user with Plan := "free" }
        { inp with body := some { req with Color := "", BgColor := "" } }).resp ∧
    (handleGenerate ext app { user with Plan := "free" }
        { inp with body := some { req with Color := color, BgColor := bgColor } }).app =
      (handleGenerate ext app { user with Plan := "free" }
        { inp with body := some { req with Color := "", BgColor := "" } }).app := by
  have hgen : generateQR ext (setDefaults { req with Color := color, BgColor := bgColor }) "free" =
      generateQR ext (setDefaults { req with Color := "", BgColor := "" }) "free" := by
    rw [generateQR_free, generateQR_free]
    simp only [setDefaults_Data, setDefaults_Size]
  refine ⟨hgen, ?_, ?_⟩
  · unfold handleGenerate bindJSON
    simp only []
    by_cases hd : req.Data = ""
    · simp [hd]
    · simp only [hd, if_false]
      cases getMonthlyUsage app.redis user.ID inp.periodAtRead with
      | error e => rfl
      | ok usage =>
        simp only []
        by_cases hq : usage ≥ plans "free"
        · simp only [hq, if_true]
        · simp only [hq, if_false]
          rw [hgen]
          simp only [setDefaults_Data]
          cases generateQR ext (setDefaults { req with Color := "", BgColor := "" }) "free" with
          | error e => rfl
          | ok png =>
            simp only []
            cases app.db.insertQR inp.qrID user.ID req.Data inp.createdAt <;> rfl
  · unfold handleGenerate bindJSON
    simp only []
    by_cases hd : req.Data = ""
    · simp [hd]
    · simp only [hd, if_false]
      cases getMonthlyUsage app.redis user.ID inp.periodAtRead with
      | error e => rfl
      | ok usage =>
        simp only []
        by_cases hq : usage ≥ plans "free"
        · simp only [hq, if_true]
        · simp only [hq, if_false]
          rw [hgen]
          simp only [setDefaults_Data]
          cases generateQR ext (setDefaults { req with Color := "", BgColor := "" }) "free" with
          | error e => rfl
          | ok png =>
            simp only []
            cases app.db.insertQR inp.qrID user.ID req.Data inp.createdAt <;> rfl

/-! ## Authentication -/

theorem find_user_none (db : DB) (apiKey : String) :
    (db.users.find? fun u => decide (u.api_key = apiKey)) = none ↔
      ∀ u ∈ db.users, u.api_key ≠ apiKey := by
  simp [List.find?_eq_none]

theorem find_user_unique (users : List UserRow) (apiKey : String) (row : UserRow)
    (huniq : users.Pairwise fun a b => a.api_key ≠ b.api_key)
    (hmem : row ∈ users) (hkey : row.api_key = apiKey) :
    (users.find? fun u => decide (u.api_key = apiKey)) = some row := by
  induction users with
  | nil => cases hmem
  | cons u us ih =>
    have hp := List.pairwise_cons.1 huniq
    rcases List.mem_cons.1 hmem with rfl | hin
    · simp [List.find?, hkey]
    · have hne : u.api_key ≠ apiKey := by
        rw [← hkey]; exact hp.1 row hin
      simp only [List.find?, hne, decide_False]
      exact ih hp.2 hin

/-- Claim C3, amended. The authenticator: the middleware answers 401 "API key
required" iff the key presented is absent or empty, and 401 "Invalid API key"
iff the key is not empty and the lookup of the account returns an error: no
row of `users` has the key, or the query is not answered. Otherwise the row
with that key is resolved (under the uniqueness of `api_key`, whichever row has
the key) and the request is passed on with the id, key and plan of that row
exactly when the limiter of the key lets it through, and answered 429 "Rate
limit exceeded" when not. In the failure cases the state is left as it was (no
bucket created, no token taken), the only call made is the account lookup,
and on the route of `handleGenerate` the handler does not run: the 401 is the
response and no usage counter is read or incremented. -/
theorem auth_failures_touch_nothing (ext : Ext) (app : App) (header : Option String)
    (now : Nat) (inp : GenerateInput) :
    ((authMiddleware app header now).outcome =
        AuthOutcome.abort ⟨401, Body.error "API key required"⟩ ↔ getHeader header = "") ∧
    ((authMiddleware app header now).outcome =
        AuthOutcome.abort ⟨401, Body.error "Invalid API key"⟩ ↔
      getHeader header ≠ "" ∧
        (app.db.up = false ∨ ∀ u ∈ app.db.users, u.api_key ≠ getHeader header)) ∧
    (∀ row, getHeader header ≠ "" → app.db.up = true →
      (app.db.users.find? fun u => decide (u.api_key = getHeader header)) = some row →
      row ∈ app.db.users ∧ row.api_key = getHeader header ∧
      (authMiddleware app header now).outcome =
        if (allowAt (getLimiter app (getHeader header)).2
            (getLimiter app (getHeader header)).1 now).1 = true then
          AuthOutcome.next
            { ID := row.id, APIKey := row.api_key, Plan := row.plan, Usage := 0, Limit := 0 }
        else AuthOutcome.abort ⟨429, Body.error "Rate limit exceeded"⟩) ∧
    (∀ row, getHeader header ≠ "" → app.db.up = true →
      (app.db.users.Pairwise fun a b => a.api_key ≠ b.api_key) →
      row ∈ app.db.users → row.api_key = getHeader header →
      (authMiddleware app header now).outcome =
        if (allowAt (getLimiter app (getHeader header)).2
            (getLimiter app (getHeader header)).1 now).1 = true then
          AuthOutcome.next
            { ID := row.id, APIKey := row.api_key, Plan := row.plan, Usage := 0, Limit := 0 }
        else AuthOutcome.abort ⟨429, Body.error "Rate limit exceeded"⟩) ∧
    (getHeader header = "" ∨ app.db.up = false ∨
        (∀ u ∈ app.db.users, u.api_key ≠ getHeader header) →
      (authMiddleware app header now).app = app ∧
      (∀ c ∈ (authMiddleware app header now).calls, c = Call.selectUser (getHeader header)) ∧
      (routeGenerate ext app header now inp).resp.status = 401 ∧
      (routeGenerate ext app header now inp).app = app ∧
      (∀ c ∈ (routeGenerate ext app header now inp).calls,
        c = Call.selectUser (getHeader header))) := by
  have hfound : ∀ row, getHeader header ≠ "" → app.db.up = true →
      (app.db.users.find? fun u => decide (u.api_key = getHeader header)) = some row →
      (authMiddleware app header now).outcome =
        if (allowAt (getLimiter app (getHeader header)).2
            (getLimiter app (getHeader header)).1 now).1 = true then
          AuthOutcome.next
            { ID := row.id, APIKey := row.api_key, Plan := row.plan, Usage := 0, Limit := 0 }
        else AuthOutcome.abort ⟨429, Body.error "Rate limit exceeded"⟩ := by
    intro row hk hup hf
    by_cases ha : (allowAt (getLimiter app (getHeader header)).2
        (getLimiter app (getHeader header)).1 now).1 = true
    · simp [authMiddleware, hk, getUserByAPIKey, hup, hf, ha]
    · simp [authMiddleware, hk, getUserByAPIKey, hup, hf, ha]
  have hfail : getHeader header ≠ "" →
      (app.db.up = false ∨ ∀ u ∈ app.db.users, u.api_key ≠ getHeader header) →
      authMiddleware app header now =
        { outcome := AuthOutcome.abort ⟨401, Body.error "Invalid API key"⟩
          app := app, calls := [Call.selectUser (getHeader header)] } := by
    intro hk hor
    rcases hor with hdown | hno
    · simp [authMiddleware, hk, getUserByAPIKey, hdown]
    · have hf := (find_user_none app.db (getHeader header)).2 hno
      by_cases hup : app.db.up = true
      · simp [authMiddleware, hk, getUserByAPIKey, hup, hf]
      · simp [authMiddleware, hk, getUserByAPIKey, hup]
  by_cases hk : getHeader header = ""
  · have ho : authMiddleware app header now =
        { outcome := AuthOutcome.abort ⟨401, Body.error "API key required"⟩
          app := app, calls := [] } := by
      simp [authMiddleware, hk]
    refine ⟨?_, ?_, ?_, ?_, ?_⟩
    · simp [ho, hk]
    · simp [ho, hk]
    · intro row h; exact absurd hk h
    · intro row h; exact absurd hk h
    · intro _
      simp [routeGenerate, ho]
  · by_cases hor : app.db.up = false ∨ ∀ u ∈ app.db.users, u.api_key ≠ getHeader header
    · have ho := hfail hk hor
      refine ⟨?_, ?_, ?_, ?_, ?_⟩
      · simp [ho, hk]
      · simp only [ho, true_iff]
        exact ⟨hk, hor⟩
      · intro row _ hup hf
        rcases hor with hdown | hno
        · rw [hdown] at hup; cases hup
        · have := (find_user_none app.db (getHeader header)).2 hno
          rw [this] at hf; cases hf
      · intro row _ hup _ hmem hkey
        rcases hor with hdown | hno
        · rw [hdown] at hup; cases hup
        · exact absurd hkey (hno row hmem)
      · intro _
        simp [routeGenerate, ho]
    · have hup : app.db.up = true := by
        by_cases h : app.db.up = true
        · exact h
        · exact absurd (Or.inl (by simpa using h)) hor
      have hsome : ¬ ∀ u ∈ app.db.users, u.api_key ≠ getHeader header :=
        fun h => hor (Or.inr h)
      cases hf : (app.db.users.find? fun u => decide (u.api_key = getHeader header)) with
      | none => exact absurd ((find_user_none app.db (getHeader header)).1 hf) hsome
      | some row =>
        have hout := hfound row hk hup hf
        have hrow := List.find?_some hf
        have hmem := List.mem_of_find?_eq_some hf
        simp only [decide_eq_true_eq] at hrow
        refine ⟨?_, ?_, ?_, ?_, ?_⟩
        · rw [hout]; split_ifs <;> simp [hk]
        · rw [hout]; split_ifs <;> simp [hk, hsome, hup]
        · intro row2 _ _ hf2
          cases hf2
          exact ⟨hmem, hrow, hout⟩
        · intro row2 _ _ huniq hmem2 hkey2
          have := find_user_unique app.db.users (getHeader header) row2 huniq hmem2 hkey2
          rw [hf] at this
          cases this
          exact hout
        · rintro (h | h | h)
          · exact absurd h hk
          · rw [hup] at h; cases h
          · exact absurd h hsome

/-- Claim C3 at concrete inputs: no header; a key that no account has; and the
key of the first sample account, which is passed on with id 1 and plan free. -/
theorem auth_failures_touch_nothing_witness :
    ((authMiddleware (sampleApp 1 "7") none 0).outcome =
        AuthOutcome.abort ⟨401, Body.error "API key required"⟩ ∧
      (routeGenerate sampleExt (sampleApp 1 "7") none 0 sampleInput).app = sampleApp 1 "7") ∧
    ((authMiddleware (sampleApp 1 "7") (some "qr_zzz") 0).outcome =
        AuthOutcome.abort ⟨401, Body.error "Invalid API key"⟩ ∧
      (routeGenerate sampleExt (sampleApp 1 "7") (some "qr_zzz") 0 sampleInput).app =
        sampleApp 1 "7") ∧
    (authMiddleware (sampleApp 1 "7") (some "qr_a") 0).outcome = AuthOutcome.next freeUser :=
  have absent := auth_failures_touch_nothing sampleExt (sampleApp 1 "7") none 0 sampleInput
  have stray := auth_failures_touch_nothing sampleExt (sampleApp 1 "7") (some "qr_zzz") 0
    sampleInput
  have known := auth_failures_touch_nothing sampleExt (sampleApp 1 "7") (some "qr_a") 0
    sampleInput
  ⟨⟨absent.1.2 rfl, (absent.2.2.2.2 (Or.inl rfl)).2.2.2.1⟩,
    ⟨stray.2.1.2 ⟨by decide, Or.inr (by decide)⟩,
      (stray.2.2.2.2 (Or.inr (Or.inr (by decide)))).2.2.2.1⟩,
    (known.2.2.2.1 ⟨1, "qr_a", "free", "cus_1"⟩ (by decide) rfl (by decide) (by decide) rfl)⟩

/-- Claim C3 as stated fails when the query is not answered: the key `qr_a` is not
empty and is the key of an account, and the middleware still answers 401
"Invalid API key". -/
theorem auth_invalid_key_counterexample :
    getHeader (some "qr_a") ≠ "" ∧
    (∃ u ∈ sampleDB.users, u.api_key = getHeader (some "qr_a")) ∧
    ¬ (∀ u ∈ ({ sampleApp 1 "7" with db := { sampleDB with up := false } } : App).db.users,
      u.api_key ≠ getHeader (some "qr_a")) ∧
    (authMiddleware { sampleApp 1 "7" with db := { sampleDB with up := false } }
      (some "qr_a") 0).outcome = AuthOutcome.abort ⟨401, Body.error "Invalid API key"⟩ := by
  refine ⟨by decide, by decide, by decide, rfl⟩

/-! ## The limiter registry -/

theorem getLimiter_keeps (app : App) (k k' : String) (p : Nat)
    (h : app.limiter k = some p) : (getLimiter app k').2.limiter k = some p := by
  unfold getLimiter
  cases hk : app.limiter k' with
  | some q => simpa using h
  | none =>
    have hne : k ≠ k' := by
      rintro rfl
      rw [hk] at h; cases h
    simp [Function.update_noteq hne, h]

theorem getLimiter_of_registered (app : App) (k : String) (p : Nat)
    (h : app.limiter k = some p) : getLimiter app k = (p, app) := by
  simp [getLimiter, h]

theorem limiterOp_keeps (app : App) (op : LimiterOp) (k : String) (p : Nat)
    (h : app.limiter k = some p) : (op.run app).limiter k = some p := by
  cases op with
  | lookup k' => exact getLimiter_keeps app k k' p h
  | allow addr now =>
    show (allowAt app addr now).2.limiter k = some p
    unfold allowAt
    cases app.heap.get? addr <;> exact h

theorem limiterOps_keep (ops : List LimiterOp) (app : App) (k : String) (p : Nat)
    (h : app.limiter k = some p) :
    (ops.foldl LimiterOp.run app).limiter k = some p := by
  induction ops generalizing app with
  | nil => simpa using h
  | cons op ops ih => exact ih _ (limiterOp_keeps app op k p h)

theorem getLimiter_registered (app : App) (k : String) :
    (getLimiter app k).2.limiter k = some (getLimiter app k).1 := by
  unfold getLimiter
  cases hk : app.limiter k with
  | some q => simpa using hk
  | none => simp

/-- Claim C9. The registry, run sequentially: `getLimiter(k)` returns the pointer
registered for `k` when there is one and leaves the state as it was;
otherwise it allocates a new limiter (10 tokens, one every 6 seconds) at an
address no key holds, registers it under `k` and leaves the limiters
already allocated as they were. Afterwards `k` is registered with the pointer
returned, and after any further calls of `getLimiter` (any keys) and of `Allow()`
(any pointers) `getLimiter(k)` still returns that pointer. No entry of another
key is added, removed or replaced, and every pointer of the registry still
points into the heap. -/
theorem getLimiter_one_bucket_per_key (app : App) (k : String) (hwf : registryWF app) :
    (∀ p, app.limiter k = some p → getLimiter app k = (p, app)) ∧
    (app.limiter k = none →
      (getLimiter app k).2.heap.get? (getLimiter app k).1 = some (NewLimiter (6 * second) 10) ∧
      (∀ k' p, app.limiter k' = some p → p ≠ (getLimiter app k).1) ∧
      (∀ i, i < app.heap.length → (getLimiter app k).2.heap.get? i = app.heap.get? i)) ∧
    (getLimiter app k).2.limiter k = some (getLimiter app k).1 ∧
    (∀ ops : List LimiterOp,
      (getLimiter (ops.foldl LimiterOp.run (getLimiter app k).2) k).1 = (getLimiter app k).1) ∧
    (∀ k', k' ≠ k → (getLimiter app k).2.limiter k' = app.limiter k') ∧
    registryWF (getLimiter app k).2 := by
  refine ⟨?_, ?_, getLimiter_registered app k, ?_, ?_, ?_⟩
  · intro p hp
    simp [getLimiter, hp]
  · intro hnone
    refine ⟨?_, ?_, ?_⟩
    · simp [getLimiter, hnone]
    · intro k' p hp
      have := hwf k' p hp
      simp only [getLimiter, hnone]
      omega
    · intro i hi
      simp only [getLimiter, hnone]
      simp [List.getElem?_append_left, hi]
  · intro ops
    rw [getLimiter_of_registered _ k _
      (limiterOps_keep ops _ k _ (getLimiter_registered app k))]
  · intro k' hk'
    unfold getLimiter
    cases hk : app.limiter k with
    | some q => rfl
    | none => simp [Function.update_noteq hk']
  · intro k' p hp
    unfold getLimiter at hp ⊢
    cases hk : app.limiter k with
    | some q =>
      simp only [hk] at hp ⊢
      exact hwf k' p hp
    | none =>
      simp only [hk] at hp ⊢
      simp only [List.length_append, List.length_singleton]
      by_cases hkk : k' = k
      · subst hkk
        simp at hp
        omega
      · rw [Function.update_noteq hkk] at hp
        have := hwf k' p hp
        omega

/-- Claim C9 at a concrete input: the first call for key `qr_a` in an empty registry
allocates address 0, and a later call, after a call for another key and an
`Allow()`, returns address 0 again. -/
theorem getLimiter_one_bucket_per_key_witness :
    (getLimiter (sampleApp 1 "7") "qr_a").2.limiter "qr_a" = some 0 ∧
    (getLimiter ([LimiterOp.lookup "qr_b", LimiterOp.allow 0 5].foldl LimiterOp.run
      (getLimiter (sampleApp 1 "7") "qr_a").2) "qr_a").1 = 0 :=
  have h := getLimiter_one_bucket_per_key (sampleApp 1 "7") "qr_a"
    (fun _ _ hp => Option.noConfusion hp)
  ⟨h.2.2.1, h.2.2.2.1 [LimiterOp.lookup "qr_b", LimiterOp.allow 0 5]⟩

/-! ## The token bucket -/

theorem allow_eq (l : Limiter) (t : Nat) :
    l.allow t =
      if 1 ≤ l.burst ∧ l.interval ≤ l.advance t then
        (true, { l with tokens := l.advance t - l.interval, last := t })
      else (false, l) := rfl

theorem allow_true (l : Limiter) (t : Nat) (h : (l.allow t).1 = true) :
    (l.allow t).2 = { l with tokens := l.advance t - l.interval, last := t } ∧
      l.interval ≤ l.advance t := by
  rw [allow_eq] at h ⊢
  split_ifs at h ⊢ with hc
  exact ⟨rfl, hc.2⟩

theorem allow_false (l : Limiter) (t : Nat) (h : ¬ (l.allow t).1 = true) :
    (l.allow t).2 = l := by
  rw [allow_eq] at h ⊢
  split_ifs at h ⊢ with hc
  · simp at h
  · rfl

theorem allow_interval (l : Limiter) (t : Nat) :
    (l.allow t).2.interval = l.interval ∧ (l.allow t).2.burst = l.burst := by
  by_cases h : (l.allow t).1 = true
  · rw [(allow_true l t h).1]; exact ⟨rfl, rfl⟩
  · rw [allow_false l t h]; exact ⟨rfl, rfl⟩

theorem allow_last_le (l : Limiter) (t u : Nat) (hl : l.last ≤ t) (hu : t ≤ u) :
    (l.allow t).2.last ≤ u := by
  by_cases h : (l.allow t).1 = true
  · rw [(allow_true l t h).1]; exact hu
  · rw [allow_false l t h]; exact le_trans hl hu

theorem advance_step (l : Limiter) (t0 t : Nat) (h0 : l.last ≤ t0) (h : t0 ≤ t) :
    l.advance t ≤ l.advance t0 + (t - t0) := by
  unfold Limiter.advance
  have h1 : ¬ t < l.last := by omega
  have h2 : ¬ t0 < l.last := by omega
  simp only [h1, h2, if_false]
  generalize l.burst * l.interval = c
  simp only [Nat.min_def]
  split_ifs <;> omega

theorem allowedInWindow_cons (l : Limiter) (t : Nat) (ts : List Nat) (a w : Nat) :
    allowedInWindow l (t :: ts) a w =
      (if (l.allow t).1 = true ∧ a ≤ t ∧ t < a + w then 1 else 0) +
        allowedInWindow (l.allow t).2 ts a w := by
  unfold allowedInWindow
  simp only [Limiter.run, List.filter_cons]
  by_cases h : (l.allow t).1 = true ∧ a ≤ t ∧ t < a + w
  · obtain ⟨h1, h2, h3⟩ := h
    simp [h1, h2, h3]
    omega
  · simp only [h, if_false, Nat.zero_add]
    have : ((l.allow t).1 && decide (a ≤ t) && decide (t < a + w)) = false := by
      rw [Bool.eq_false_iff]
      intro hc
      simp only [Bool.and_eq_true, decide_eq_true_eq] at hc
      exact h ⟨hc.1.1, hc.1.2, hc.2⟩
    simp [this]

theorem allowedInWindow_past (ts : List Nat) (l : Limiter) (b : Nat)
    (h : ∀ t ∈ ts, b ≤ t) : allowedInWindow l ts 0 b = 0 := by
  induction ts generalizing l with
  | nil => rfl
  | cons t ts ih =>
    rw [allowedInWindow_cons, ih _ (fun u hu => h u (List.mem_cons_of_mem _ hu))]
    have := h t (List.mem_cons_self _ _)
    have hn : ¬ ((l.allow t).1 = true ∧ 0 ≤ t ∧ t < 0 + b) := by omega
    simp only [hn, if_false]

theorem allowedInWindow_from (ts : List Nat) (l : Limiter) (a w : Nat)
    (h : ∀ t ∈ ts, a ≤ t) : allowedInWindow l ts a w = allowedInWindow l ts 0 (a + w) := by
  induction ts generalizing l with
  | nil => rfl
  | cons t ts ih =>
    rw [allowedInWindow_cons, allowedInWindow_cons,
      ih _ (fun u hu => h u (List.mem_cons_of_mem _ hu))]
    have := h t (List.mem_cons_self _ _)
    simp [this]

/-- Tokens spent before time `b` by attempts that start at `t0` are covered by
the tokens available at `t0` and the refill up to `b`. -/
theorem spent_le_available (ts : List Nat) (l : Limiter) (t0 b : Nat)
    (hs : ts.Sorted (· ≤ ·)) (hl : l.last ≤ t0) (h0 : ∀ t ∈ ts, t0 ≤ t) :
    allowedInWindow l ts 0 b * l.interval ≤ l.advance t0 + (b - 1 - t0) := by
  induction ts generalizing l t0 with
  | nil => simp [allowedInWindow, Limiter.run]
  | cons t ts ih =>
    have ht0 : t0 ≤ t := h0 t (List.mem_cons_self _ _)
    have hs' := List.sorted_cons.1 hs
    by_cases hb : t < b
    · have hstep := advance_step l t0 t hl ht0
      rw [allowedInWindow_cons]
      by_cases ha : (l.allow t).1 = true
      · have hst := allow_true l t ha
        have hih := ih (l.allow t).2 t hs'.2 (by rw [hst.1]) hs'.1
        rw [(allow_interval l t).1] at hih
        have hadv : (l.allow t).2.advance t ≤ l.advance t - l.interval := by
          rw [hst.1]
          simp only [Limiter.advance, lt_irrefl, if_false, Nat.sub_self, Nat.add_zero]
          exact Nat.min_le_right _ _
        have hcond : (l.allow t).1 = true ∧ 0 ≤ t ∧ t < 0 + b := ⟨ha, Nat.zero_le _, by omega⟩
        simp only [hcond, and_self, if_true, Nat.add_mul, Nat.one_mul]
        omega
      · have hst := allow_false l t ha
        have hih := ih (l.allow t).2 t hs'.2 (by rw [hst]; omega) hs'.1
        have hn : ¬ ((l.allow t).1 = true ∧ 0 ≤ t ∧ t < 0 + b) := fun h => ha h.1
        rw [if_neg hn, Nat.zero_add]
        rw [hst] at hih ⊢
        omega
    · have hz := allowedInWindow_past (t :: ts) l b (by
        intro u hu
        have := h0 u hu
        rcases List.mem_cons.1 hu with rfl | hu'
        · omega
        · have := hs'.1 u hu'
          omega)
      rw [hz]
      omega

/-- A bucket admits, in a window of length `w`, no more than its capacity plus
the refill of the window. -/
theorem window_le_capacity (ts : List Nat) (l : Limiter) (a w : Nat)
    (hs : ts.Sorted (· ≤ ·)) (hl : ∀ t ∈ ts, l.last ≤ t) :
    allowedInWindow l ts a w * l.interval ≤ l.burst * l.interval + (w - 1) := by
  induction ts generalizing l with
  | nil => simp [allowedInWindow, Limiter.run]
  | cons t ts ih =>
    have hs' := List.sorted_cons.1 hs
    have hlt : l.last ≤ t := hl t (List.mem_cons_self _ _)
    by_cases ha : a ≤ t
    · have hall : ∀ u ∈ t :: ts, a ≤ u := by
        intro u hu
        rcases List.mem_cons.1 hu with rfl | hu'
        · exact ha
        · exact le_trans ha (hs'.1 u hu')
      have hall' : ∀ u ∈ t :: ts, t ≤ u := by
        intro u hu
        rcases List.mem_cons.1 hu with rfl | hu'
        · exact le_refl _
        · exact hs'.1 u hu'
      rw [allowedInWindow_from _ _ _ _ hall]
      have h1 := spent_le_available (t :: ts) l t (a + w) hs hlt hall'
      have h2 : l.advance t ≤ l.burst * l.interval := Nat.min_le_left _ _
      omega
    · rw [allowedInWindow_cons]
      have hih := ih (l.allow t).2 hs'.2
        (fun u hu => allow_last_le l t u hlt (hs'.1 u hu))
      rw [(allow_interval l t).1, (allow_interval l t).2] at hih
      have hn : ¬ ((l.allow t).1 = true ∧ a ≤ t ∧ t < a + w) := by tauto
      simp only [hn, if_false, Nat.zero_add]
      exact hih

/-- Claim C6, amended. Rate admission: the bucket `getLimiter` creates for a key (capacity 10,
one token every 6 seconds), asked at any non-decreasing sequence of times,
lets through at most 10 attempts in any window `[a, a + w)` of at most 6
seconds, hence in any window shorter than the refill interval, closed or
half open, whatever the key. -/
theorem getLimiter_bucket_window (app : App) (k : String) (l : Limiter) (ts : List Nat)
    (a w : Nat) (hnew : app.limiter k = none)
    (hl : (getLimiter app k).2.heap.get? (getLimiter app k).1 = some l)
    (hs : ts.Sorted (· ≤ ·)) (hw : w ≤ 6 * second) :
    allowedInWindow l ts a w ≤ 10 := by
  have hl' : l = NewLimiter (6 * second) 10 := by
    simp [getLimiter, hnew] at hl
    exact hl.symm
  subst hl'
  have h := window_le_capacity ts (NewLimiter (6 * second) 10) a w hs
    (fun t _ => Nat.zero_le t)
  simp only [NewLimiter, second] at h hw ⊢
  omega

/-- Claim C6 at a concrete input: twelve attempts at time 0 and one 5 seconds later,
counted in the window of the first 5.9 seconds. -/
theorem getLimiter_bucket_window_witness :
    (5900000000 ≤ 6 * second) ∧
    allowedInWindow (NewLimiter (6 * second) 10) (List.replicate 12 0 ++ [5 * second]) 0
      5900000000 ≤ 10 :=
  ⟨by decide, getLimiter_bucket_window (sampleApp 1 "7") "qr_a" (NewLimiter (6 * second) 10)
    (List.replicate 12 0 ++ [5 * second]) 0 5900000000 rfl rfl (by decide) (by decide)⟩

/-- Claim C6 as stated fails for attempts whose time stamps are not in order. The
bucket `getLimiter` creates, asked 8 times at time 0, then at 3 s, at 0 and at
3 s again, lets all 11 attempts through, all stamped within the window
`[0, 3 s + 1 ns)`, and the middleware passes all 11 requests on; asked 8 times
at 0, then at 1 ns, at 0 and at 6 s - 1 ns, it lets through 11 attempts
stamped within the closed window from 0 to 6 s - 1 ns. -/
theorem unordered_attempts_counterexample :
    (getLimiter (sampleApp 1 "0") "qr_a").2.heap.get? (getLimiter (sampleApp 1 "0") "qr_a").1 =
      some (NewLimiter (6 * second) 10) ∧
    (3 * second + 1 < 6 * second ∧
      allowedInWindow (NewLimiter (6 * second) 10)
        (List.replicate 8 0 ++ [3 * second, 0, 3 * second]) 0 (3 * second + 1) = 11 ∧
      passedOn (sampleApp 1 "0") (some "qr_a")
        (List.replicate 8 0 ++ [3 * second, 0, 3 * second]) = 11) ∧
    ((∀ t ∈ List.replicate 8 0 ++ [1, 0, 6 * second - 1], t ≤ 6 * second - 1) ∧
      allowedInWindow (NewLimiter (6 * second) 10)
        (List.replicate 8 0 ++ [1, 0, 6 * second - 1]) 0 (6 * second - 1 + 1) = 11 ∧
      passedOn (sampleApp 1 "0") (some "qr_a")
        (List.replicate 8 0 ++ [1, 0, 6 * second - 1]) = 11) := by
  refine ⟨by decide, ⟨by decide, by decide, by decide⟩, ⟨by decide, by decide, by decide⟩⟩

/-- Claim C7 at a failing input: nineteen requests with one key, ten at time 0 and
one every 6 seconds up to second 54, all within one window of 60 seconds;
the bucket lets all nineteen through and the middleware passes all nineteen
on to the handler. -/
theorem burst_exceeds_ten_per_minute :
    burstTimes.length = 19 ∧
    (∀ t ∈ burstTimes, t < 60 * second) ∧
    allowedInWindow (NewLimiter (6 * second) 10) burstTimes 0 (60 * second) = 19 ∧
    passedOn (sampleApp 1 "0") (some "qr_a") burstTimes = 19 := by
  refine ⟨by decide, by decide, by decide, by decide⟩

/-! ## Analytics -/

/-- Claim C8 at a failing input: a code read at the very instant of its creation. With
5 scans the average reported is the positive infinity, with 0 scans it is
NaN; in neither case is it 0. -/
theorem analytics_zero_elapsed_not_zero :
    (handleAnalytics (analyticsApp 5 1736000000000000000) "abc123" 1736000000000000000).resp.body =
      Body.analytics "abc123" 5 1736000000000000000 (F64.inf false) ∧
    (handleAnalytics (analyticsApp 0 1736000000000000000) "abc123" 1736000000000000000).resp.body =
      Body.analytics "abc123" 0 1736000000000000000 F64.nan ∧
    ∀ scans now : Int, avgScansPerDay scans now now ≠ F64.fin 0 := by
  have key : ∀ scans now : Int, avgScansPerDay scans now now =
      if (scans : ℚ) = 0 then F64.nan else F64.inf (decide ((scans : ℚ) < 0)) := by
    intro scans now
    have hs : since now now = 0 := by simp [since, int64Bound]
    have h24 : decide ((24 : ℚ) < 0) = false := by
      rw [decide_eq_false_iff_not]; norm_num
    simp only [avgScansPerDay, hs, hours, Int.cast_zero, zero_div, F64.div, if_true]
    by_cases h : (scans : ℚ) = 0
    · simp only [h, if_true, F64.mul]
    · have h' : (24 : ℚ) ≠ 0 := by norm_num
      simp only [h, if_false, F64.mul, h', h24, Bool.bne_false]
  refine ⟨?_, ?_, ?_⟩
  · simp [handleAnalytics, analyticsApp, sampleDB, key]
  · simp [handleAnalytics, analyticsApp, sampleDB, key]
  · intro scans now
    rw [key]
    split_ifs <;> simp

end QrApi
